import Mathlib

set_option maxRecDepth 16000

/-!
Verification development for the vistet_backend repository.

We shallowly embed the two components the specification describes:

* the page extractor of
  `scraper/vistet_scraper/vistet_scraper/spiders/details_scraper.py`
  (JSON-in-JavaScript extraction, image URL normalization, name fallback), and
* the ingestion path of `api/serializers.py` / `api/views.py` together with
  the `Clothe` and `Store` models of `api/models/` (type mapping, price
  derivation, get-or-create of the scraped-source store, update-or-create of
  catalog rows, bulk ingestion).

Modelling conventions:

* Python JSON values are the inductive type `JValue`; Python `None` is
  `JValue.null`.  JSON numbers are modelled as exact rationals (the claims
  under scrutiny only exercise exact divisions such as 3799000 / 100, where
  CPython float arithmetic is exact as well).
* Python exceptions are `Except Unit` (an uncaught exception is `.error ()`);
  functions whose Python counterpart cannot raise are total.
* Strings are scanned as character lists (`String.data`), and the two regular
  expression searches of the spider are implemented by the equivalent
  leftmost-match substring scans (the patterns consist of literal pieces
  separated by lazy gaps, for which leftmost-first occurrence search is
  exactly the Python `re.search` semantics).
* The Django ORM state is an explicit `DB` value; `update_or_create` /
  `get_or_create` are explicit state-passing functions, and the model-level
  constraints of `Clothe.Meta` (the user-xor-store check constraint, the
  unique `shopify_id`) are enforced at write time as the database would.
-/

/-- A JSON value as produced by Python json.loads: objects keep their key
insertion order, numbers are exact rationals. -/
inductive JValue where
  | null : JValue
  | bool : Bool → JValue
  | num : Rat → JValue
  | str : String → JValue
  | arr : List JValue → JValue
  | obj : List (String × JValue) → JValue
deriving Repr, Inhabited

/-- Python truthiness of a JSON value: None, False, 0, empty string, empty
list and empty dict are falsy, everything else truthy. -/
def jTruthy : JValue → Bool
  | .null => false
  | .bool b => b
  | .num q => if q = 0 then false else true
  | .str s => if s = "" then false else true
  | .arr l => if l.isEmpty then false else true
  | .obj l => if l.isEmpty then false else true

/-- Dict member lookup: first binding of the key (parsed objects have unique
keys, the later duplicate winning at parse time). -/
def jLookup (kvs : List (String × JValue)) (k : String) : Option JValue :=
  match kvs with
  | [] => none
  | (k0, v) :: rest => if k0 = k then some v else jLookup rest k

/-- Python d.get(k): returns an optional value on dicts, raises
AttributeError (modelled as an error) on every other receiver. -/
def jGet (v : JValue) (k : String) : Except Unit (Option JValue) :=
  match v with
  | .obj kvs => .ok (jLookup kvs k)
  | _ => .error ()

/-- Python d.get(k, default). -/
def jGetD (v : JValue) (k : String) (d : JValue) : Except Unit JValue := do
  let r ← jGet v k
  pure (r.getD d)

/-- Python for-loop iteration over a JSON value: lists yield their elements,
strings their one-character substrings, dicts their keys; iterating any other
value raises TypeError. -/
def pyIter : JValue → Except Unit (List JValue)
  | .arr l => .ok l
  | .str s => .ok (s.data.map (fun c => .str (String.mk [c])))
  | .obj kvs => .ok (kvs.map (fun kv => .str kv.1))
  | _ => .error ()

/-- Whitespace of Python str.strip and of the regular-expression class
backslash-s, restricted to its ASCII members (the storefront pages only
contain those). -/
def isPyWs (c : Char) : Bool :=
  c == ' ' || c == '\t' || c == '\n' || c == '\r' || c == Char.ofNat 11 || c == Char.ofNat 12

/-- Python s.strip(): drop whitespace from both ends. -/
def trimWs (s : String) : String :=
  String.mk (((s.data.dropWhile (fun c => isPyWs c)).reverse.dropWhile (fun c => isPyWs c)).reverse)

/-- Natural number denoted by a list of decimal digits. -/
def digitsVal (cs : List Char) : Nat := cs.foldl (fun a c => a * 10 + (c.toNat - 48)) 0

/-- Python int(x) for JSON scalars: ints and floats truncate toward zero,
bools map to 0/1, int-shaped strings parse after stripping whitespace;
anything else raises (None and containers raise TypeError, non-numeric
strings ValueError). -/
def pyIntOf : JValue → Option Int
  | .num q => some (if q < 0 then -((-q).floor) else q.floor)
  | .bool b => some (if b then 1 else 0)
  | .str s =>
      let t := (trimWs s).data
      let core := match t with
        | '-' :: rest => rest
        | '+' :: rest => rest
        | _ => t
      if core ≠ [] ∧ core.all (fun c => c.isDigit) then
        some (if t.headD ' ' = '-' then -(Int.ofNat (digitsVal core)) else Int.ofNat (digitsVal core))
      else none
  | _ => none

/-- Decimal representation of an integer, as Python str(int) renders it. -/
def intRepr (n : Int) : String := toString n

/-- Python str(x) of a JSON scalar as used by the f-string
f"Product ...": None prints as None, bools as True/False, integers in
decimal.  Non-integral numbers and containers are rendered approximately;
no claim exercises those cases. -/
def pyStr : JValue → String
  | .null => "None"
  | .bool b => if b then "True" else "False"
  | .num q => if q.den = 1 then intRepr q.num else toString q
  | .str s => s
  | .arr _ => "[...]"
  | .obj _ => "..."

/-- The character left brace, kept under a name. -/
def lbrace : Char := Char.ofNat 123

/-- The character right brace, kept under a name. -/
def rbrace : Char := Char.ofNat 125

/-- JSON whitespace as accepted between tokens by Python json.loads. -/
def isJsonWs (c : Char) : Bool := c == ' ' || c == '\t' || c == '\n' || c == '\r'

/-- Drop leading JSON whitespace. -/
def skipWs (cs : List Char) : List Char := cs.dropWhile (fun c => isJsonWs c)

/-- Index of the first occurrence of pat as a contiguous sublist, if any. -/
def findSub (pat : List Char) : List Char → Option Nat
  | [] => if List.isPrefixOf pat [] then some 0 else none
  | c :: cs =>
      if List.isPrefixOf pat (c :: cs) then some 0
      else (findSub pat cs).map (· + 1)

/-- Value of a hexadecimal digit. -/
def hexVal (c : Char) : Option Nat :=
  if c.isDigit then some (c.toNat - 48)
  else if 'a' ≤ c ∧ c ≤ 'f' then some (c.toNat - 87)
  else if 'A' ≤ c ∧ c ≤ 'F' then some (c.toNat - 55)
  else none

/-- Body of a JSON string literal, to be read after the opening quote;
returns the decoded content and the input following the closing quote.
Faithful to json.loads with strict=true: raw control characters are
rejected; the short escapes and uXXXX escapes (with surrogate-pair
combination) are decoded. -/
def parseJStringF : Nat → List Char → Option (String × List Char)
  | 0, _ => none
  | _, [] => none
  | fuel + 1, c :: cs =>
      if c = '"' then some ("", cs)
      else if c = '\\' then
        match cs with
        | [] => none
        | e :: cs2 =>
            if e = 'u' then
              match cs2 with
              | h1 :: h2 :: h3 :: h4 :: cs3 => do
                  let a ← hexVal h1
                  let b ← hexVal h2
                  let c3 ← hexVal h3
                  let d ← hexVal h4
                  let code := ((a * 16 + b) * 16 + c3) * 16 + d
                  if 0xD800 ≤ code ∧ code ≤ 0xDBFF then
                    match cs3 with
                    | '\\' :: 'u' :: g1 :: g2 :: g3 :: g4 :: cs4 => do
                        let a2 ← hexVal g1
                        let b2 ← hexVal g2
                        let c2 ← hexVal g3
                        let d2 ← hexVal g4
                        let lo := ((a2 * 16 + b2) * 16 + c2) * 16 + d2
                        if 0xDC00 ≤ lo ∧ lo ≤ 0xDFFF then do
                          let cp := 0x10000 + (code - 0xD800) * 0x400 + (lo - 0xDC00)
                          let (s, rest) ← parseJStringF fuel cs4
                          pure (String.mk (Char.ofNat cp :: s.data), rest)
                        else do
                          let (s, rest) ← parseJStringF fuel cs3
                          pure (String.mk (Char.ofNat code :: s.data), rest)
                    | _ => do
                        let (s, rest) ← parseJStringF fuel cs3
                        pure (String.mk (Char.ofNat code :: s.data), rest)
                  else do
                    let (s, rest) ← parseJStringF fuel cs3
                    pure (String.mk (Char.ofNat code :: s.data), rest)
              | _ => none
            else do
              let d ← (if e = '"' then some '"'
                       else if e = '\\' then some '\\'
                       else if e = '/' then some '/'
                       else if e = 'b' then some (Char.ofNat 8)
                       else if e = 'f' then some (Char.ofNat 12)
                       else if e = 'n' then some '\n'
                       else if e = 'r' then some '\r'
                       else if e = 't' then some '\t'
                       else none)
              let (s, rest) ← parseJStringF fuel cs2
              pure (String.mk (d :: s.data), rest)
      else if c.toNat < 32 then none
      else do
        let (s, rest) ← parseJStringF fuel cs
        pure (String.mk (c :: s.data), rest)

/-- A JSON number literal in the grammar of json.loads; returns its exact
rational value and the rest of the input. -/
def parseJNumber (cs : List Char) : Option (Rat × List Char) :=
  let (neg, cs1) := match cs with
    | '-' :: rest => (true, rest)
    | _ => (false, cs)
  let intDigits := cs1.takeWhile (fun c => c.isDigit)
  let cs2 := cs1.dropWhile (fun c => c.isDigit)
  if intDigits.isEmpty then none
  else if intDigits.length > 1 ∧ intDigits.headD '0' = '0' then none
  else
    let ipart : Nat := digitsVal intDigits
    let fc : List Char × List Char := match cs2 with
      | '.' :: rest => (rest.takeWhile (fun c => c.isDigit), rest.dropWhile (fun c => c.isDigit))
      | _ => ([], cs2)
    let fracDigits := fc.1
    let cs3 := fc.2
    if cs2.headD ' ' = '.' ∧ fracDigits.isEmpty then none
    else
      let hasExp := cs3.headD ' ' = 'e' ∨ cs3.headD ' ' = 'E'
      let csE := if hasExp then cs3.drop 1 else cs3
      let ec : Bool × List Char := match csE with
        | '-' :: rest => (true, rest)
        | '+' :: rest => (false, rest)
        | _ => (false, csE)
      let eneg := ec.1
      let csE2 := ec.2
      let expDigits := csE2.takeWhile (fun c => c.isDigit)
      let cs4 := csE2.dropWhile (fun c => c.isDigit)
      if hasExp ∧ expDigits.isEmpty then none
      else
        let rest := if hasExp then cs4 else cs3
        if ¬ hasExp ∧ fracDigits.isEmpty then
          some ((if neg then -(ipart : Rat) else (ipart : Rat)), rest)
        else
          let base : Rat := (ipart : Rat) + (digitsVal fracDigits : Rat) / (10 : Rat) ^ fracDigits.length
          let scaled : Rat :=
            if hasExp then
              (if eneg then base / (10 : Rat) ^ digitsVal expDigits
               else base * (10 : Rat) ^ digitsVal expDigits)
            else base
          some ((if neg then -scaled else scaled), rest)

/-- Insert a key into a parsed object the way the Python dict builder does:
an existing key keeps its position and gets the new value, a new key is
appended. -/
def objInsert (kvs : List (String × JValue)) (k : String) (v : JValue) : List (String × JValue) :=
  if kvs.any (fun kv => kv.1 = k) then kvs.map (fun kv => if kv.1 = k then (k, v) else kv)
  else kvs ++ [(k, v)]

mutual

/-- Fueled recursive-descent JSON value reader, the decoder behind
json.loads; leading whitespace is skipped. -/
def parseValueF : Nat → List Char → Option (JValue × List Char)
  | 0, _ => none
  | fuel + 1, cs =>
      match skipWs cs with
      | [] => none
      | c :: rest =>
          if c = lbrace then
            match skipWs rest with
            | c2 :: rest2 =>
                if c2 = rbrace then some (.obj [], rest2)
                else parseObjItemsF fuel (c2 :: rest2) []
            | [] => none
          else if c = '[' then
            match skipWs rest with
            | c2 :: rest2 =>
                if c2 = ']' then some (.arr [], rest2)
                else parseArrItemsF fuel (c2 :: rest2) []
            | [] => none
          else if c = '"' then
            (parseJStringF (rest.length + 1) rest).map (fun sr => (.str sr.1, sr.2))
          else if List.isPrefixOf ['t', 'r', 'u', 'e'] (c :: rest) then
            some (.bool true, rest.drop 3)
          else if List.isPrefixOf ['f', 'a', 'l', 's', 'e'] (c :: rest) then
            some (.bool false, rest.drop 4)
          else if List.isPrefixOf ['n', 'u', 'l', 'l'] (c :: rest) then
            some (.null, rest.drop 3)
          else
            (parseJNumber (c :: rest)).map (fun nr => (.num nr.1, nr.2))

/-- Array elements after the opening bracket (first element not yet read). -/
def parseArrItemsF : Nat → List Char → List JValue → Option (JValue × List Char)
  | 0, _, _ => none
  | fuel + 1, cs, acc =>
      match parseValueF fuel cs with
      | none => none
      | some (v, rest) =>
          match skipWs rest with
          | ',' :: rest2 => parseArrItemsF fuel rest2 (acc ++ [v])
          | ']' :: rest2 => some (.arr (acc ++ [v]), rest2)
          | _ => none

/-- Object members after the opening brace (first key not yet read). -/
def parseObjItemsF : Nat → List Char → List (String × JValue) → Option (JValue × List Char)
  | 0, _, _ => none
  | fuel + 1, cs, acc =>
      match skipWs cs with
      | '"' :: rest =>
          match parseJStringF (rest.length + 1) rest with
          | none => none
          | some (k, rest2) =>
              match skipWs rest2 with
              | ':' :: rest3 =>
                  match parseValueF fuel rest3 with
                  | none => none
                  | some (v, rest4) =>
                      match skipWs rest4 with
                      | ',' :: rest5 => parseObjItemsF fuel rest5 (objInsert acc k v)
                      | c :: rest5 =>
                          if c = rbrace then some (.obj (objInsert acc k v), rest5)
                          else none
                      | [] => none
              | _ => none
      | _ => none

end

/-- Python json.loads: parse one JSON document, requiring only whitespace
after it; on any syntax error json.loads raises JSONDecodeError, modelled
as none. -/
def jsonLoads (s : String) : Option JValue :=
  match parseValueF (2 * s.data.length + 4) s.data with
  | some (v, rest) => if (skipWs rest).isEmpty then some v else none
  | none => none

/-- Literal head of the meta pattern of DetailsSpider.extract_meta_products:
the text var meta = followed by the opening brace of group 1. -/
def metaLit : List Char := "var meta = \x7b".data

/-- The literal products marker inside the meta pattern. -/
def productsLit : List Char := "\"products\":[".data

/-- The search re.search(meta_pattern, html, re.DOTALL) of
DetailsSpider.extract_meta_products, returning group 1.  The pattern is a
chain of literals separated by lazy gaps ending in a brace-semicolon, so the
leftmost match is found by taking the first occurrence of each literal in
turn; if the chain cannot be completed after the first occurrence of the
head literal it cannot be completed after any later one either, hence a
single scan is the exact re.search semantics. -/
def metaSearch (html : String) : Option String :=
  match findSub metaLit html.data with
  | none => none
  | some i =>
      let rest := html.data.drop (i + metaLit.length)
      match findSub productsLit rest with
      | none => none
      | some j =>
          match findSub [']'] (rest.drop (j + productsLit.length)) with
          | none => none
          | some k =>
              match findSub [rbrace, ';'] (rest.drop (j + productsLit.length + k + 1)) with
              | none => none
              | some l =>
                  some (String.mk (lbrace :: rest.take (j + productsLit.length + k + 1 + l + 1)))

/-- DetailsSpider.extract_meta_products: find the meta assignment, parse it
as JSON and return its products member; a missing marker or a JSON parse
error yields the empty list (the except branch), while a parsed document
that is not an object would escape the except clause (it only catches
JSONDecodeError) — unreachable here because the matched text starts with a
brace. -/
def extract_meta_products (html : String) : Except Unit JValue :=
  match metaSearch html with
  | none => .ok (.arr [])
  | some s =>
      match jsonLoads s with
      | none => .ok (.arr [])
      | some meta_data => jGetD meta_data "products" (.arr [])

/-- Literal head of the web-pixels pattern of
DetailsSpider.extract_images_from_web_pixels. -/
def wpLit : List Char := "webPixelsManagerAPI.publish(\"collection_viewed\",".data

/-- The literal productVariants marker inside the web-pixels pattern. -/
def pvLit : List Char := "\"productVariants\":[".data

/-- Completion of the web-pixels pattern after its opening brace: the lazy
chain productVariants-marker, closing bracket, brace-parenthesis; body is
the text after the opening brace and the result is group 1. -/
def wpChain (body : List Char) : Option String :=
  match findSub pvLit body with
  | none => none
  | some j =>
      match findSub [']'] (body.drop (j + pvLit.length)) with
      | none => none
      | some k =>
          match findSub [rbrace, ')'] (body.drop (j + pvLit.length + k + 1)) with
          | none => none
          | some l =>
              some (String.mk (lbrace :: body.take (j + pvLit.length + k + 1 + l + 1)))

/-- Scan for the web-pixels call: at each occurrence of the literal head,
skip the whitespace gap and require an opening brace; on failure of that
check resume at the next occurrence.  If the lazy chain after the brace
cannot be completed there it cannot be completed after any later occurrence
(the later suffix is contained in the earlier one), so returning none is
again the exact re.search semantics. -/
def wpSearchAux : Nat → List Char → Option String
  | 0, _ => none
  | fuel + 1, cs =>
      match findSub wpLit cs with
      | none => none
      | some i =>
          let after := (cs.drop (i + wpLit.length)).dropWhile (fun c => isPyWs c)
          if after.headD ' ' = lbrace then wpChain (after.drop 1)
          else wpSearchAux fuel (cs.drop (i + 1))

/-- The search re.search(web_pixels_pattern, html, re.DOTALL), group 1. -/
def wpSearch (html : String) : Option String := wpSearchAux (html.data.length + 1) html.data

/-- Characters allowed in a URL scheme by urllib.parse. -/
def isSchemeChar (c : Char) : Bool := c.isAlphanum || c == '+' || c == '-' || c == '.'

/-- The scheme split of urllib.parse.urlparse: the text before the first
colon counts as the scheme when it is nonempty, starts with a letter and
consists of scheme characters; the scheme is lowercased. -/
def urlSplitScheme (cs : List Char) : Option (List Char × List Char) :=
  match findSub [':'] cs with
  | none => none
  | some i =>
      let sch := cs.take i
      if 0 < i ∧ (sch.headD ' ').isAlpha ∧ sch.all (fun c => isSchemeChar c) then
        some (sch.map Char.toLower, cs.drop (i + 1))
      else none

/-- parsed.scheme of urllib.parse.urlparse. -/
def urlScheme (s : String) : String :=
  match urlSplitScheme s.data with
  | some sr => String.mk sr.1
  | none => ""

/-- parsed.netloc of urllib.parse.urlparse: present only when the text
after the scheme starts with two slashes, and then extends to the next
slash, question mark or hash. -/
def urlNetloc (s : String) : String :=
  let rest := match urlSplitScheme s.data with
    | some sr => sr.2
    | none => s.data
  if List.isPrefixOf ['/', '/'] rest then
    String.mk ((rest.drop 2).takeWhile (fun c => ¬ (c = '/' ∨ c = '?' ∨ c = Char.ofNat 35)))
  else ""

/-- Python s.startswith(pre). -/
def pyStartsWith (s pre : String) : Bool := List.isPrefixOf pre.data s.data

/-- The image-path normalization chain of
DetailsSpider.extract_images_from_web_pixels (lines 93-100): two leading
slashes get the https prefix, a single leading slash is prefixed with the
storefront origin, a path not starting with http is joined to the origin
after stripping leading slashes, anything else passes through. -/
def normalize_image_src (image_src : String) : String :=
  if pyStartsWith image_src "//" then "https:" ++ image_src
  else if pyStartsWith image_src "/" then "https://rehabclo.cl" ++ image_src
  else if ¬ pyStartsWith image_src "http" then
    "https://rehabclo.cl/" ++ String.mk (image_src.data.dropWhile (fun c => c = '/'))
  else image_src

/-- Assignment image_mapping[k] = v on a Python dict kept as an ordered
association list. -/
def assocSet (m : List (Int × String)) (k : Int) (v : String) : List (Int × String) :=
  if m.any (fun kv => kv.1 = k) then m.map (fun kv => if kv.1 = k then (k, v) else kv)
  else m ++ [(k, v)]

/-- Python image_mapping.get(product_id, "") where the keys are ints:
numeric values compare by value (ints, floats and bools interoperate),
hashable non-numeric values miss, and unhashable values (lists, dicts)
raise TypeError. -/
def imageLookupGet (m : List (Int × String)) : JValue → Except Unit String
  | .num q => .ok (if q.den = 1 then ((m.find? (fun kv => kv.1 = q.num)).map Prod.snd).getD "" else "")
  | .bool b => .ok (((m.find? (fun kv => kv.1 = (if b then 1 else 0))).map Prod.snd).getD "")
  | .null => .ok ""
  | .str _ => .ok ""
  | .arr _ => .error ()
  | .obj _ => .error ()

/-- One iteration of the productVariants loop of
DetailsSpider.extract_images_from_web_pixels: read the nested product id and
image source, normalize, and insert into the mapping only when the result
parses with both a scheme and a network location; the inner try swallows
the int() conversion failure, while a truthy non-string image source
raises at .startswith, uncaught. -/
def processVariantEntry (m : List (Int × String)) (variant : JValue) : Except Unit (List (Int × String)) := do
  let product_info ← jGetD variant "product" (.obj [])
  let product_id ← jGet product_info "id"
  let image_info ← jGetD variant "image" (.obj [])
  let image_src ← jGetD image_info "src" (.str "")
  let pid := product_id.getD .null
  if jTruthy pid && jTruthy image_src then
    match image_src with
    | .str srcs =>
        let image_url := normalize_image_src srcs
        if urlScheme image_url ≠ "" ∧ urlNetloc image_url ≠ "" then
          match pyIntOf pid with
          | some n => .ok (assocSet m n image_url)
          | none => .ok m
        else .ok m
    | _ => .error ()
  else .ok m

/-- DetailsSpider.extract_images_from_web_pixels: a missing web-pixels
section or unparseable JSON yields the empty mapping (the except clause
catches exactly JSONDecodeError); otherwise the productVariants entries are
folded through processVariantEntry. -/
def extract_images_from_web_pixels (html : String) : Except Unit (List (Int × String)) :=
  match wpSearch html with
  | none => .ok []
  | some s =>
      match jsonLoads s with
      | none => .ok []
      | some collection_data => do
          let coll ← jGetD collection_data "collection" (.obj [])
          let pvsv ← jGetD coll "productVariants" (.arr [])
          let pvs ← pyIter pvsv
          pvs.foldlM processVariantEntry []

/-- Python len(x). -/
def pyLen : JValue → Except Unit Nat
  | .str s => .ok s.data.length
  | .arr l => .ok l.length
  | .obj kvs => .ok kvs.length
  | _ => .error ()

/-- Python x[0]. -/
def pyIndex0 : JValue → Except Unit JValue
  | .arr (v :: _) => .ok v
  | .arr [] => .error ()
  | .str s =>
      match s.data with
      | c :: _ => .ok (.str (String.mk [c]))
      | [] => .error ()
  | _ => .error ()

/-- Python needle in x: substring test on strings, membership on lists,
key test on dicts, TypeError elsewhere. -/
def pyContains (needle : String) : JValue → Except Unit Bool
  | .str s => .ok (findSub needle.data s.data).isSome
  | .arr l => .ok (l.any (fun v => match v with | .str t => t = needle | _ => false))
  | .obj kvs => .ok (kvs.any (fun kv => kv.1 = needle))
  | _ => .error ()

/-- Python s.split(sep)[0] for a nonempty separator: the text before the
first occurrence of the separator, the whole string when absent. -/
def splitHead (s sep : String) : String :=
  match findSub sep.data s.data with
  | some i => String.mk (s.data.take i)
  | none => s

/-- DetailsSpider.extract_product_name: first truthy field among title,
name, product_title; else, when the variants member is truthy with positive
length and the first variant has a truthy name containing the separator,
the text left of the separator; else the string Product followed by the id
(Unknown when absent). -/
def extract_product_name (product : JValue) : Except Unit JValue := do
  let t ← jGet product "title"
  if jTruthy (t.getD .null) then pure (t.getD .null)
  else do
    let n ← jGet product "name"
    if jTruthy (n.getD .null) then pure (n.getD .null)
    else do
      let pt ← jGet product "product_title"
      if jTruthy (pt.getD .null) then pure (pt.getD .null)
      else do
        let vs ← jGet product "variants"
        let vsv := vs.getD .null
        let fallback : Except Unit JValue := do
          let idv ← jGetD product "id" (.str "Unknown")
          pure (.str ("Product " ++ pyStr idv))
        if jTruthy vsv then do
          let len ← pyLen vsv
          if len > 0 then do
            let first_variant ← pyIndex0 vsv
            let variant_name ← jGetD first_variant "name" (.str "")
            if jTruthy variant_name then do
              let hasSep ← pyContains " - " variant_name
              if hasSep then
                match variant_name with
                | .str vn => pure (.str (splitHead vn " - "))
                | _ => .error ()
              else fallback
            else fallback
          else fallback
        else fallback

/-- The record DetailsSpider.process_product_data builds for the API. -/
structure ProductData where
  id : JValue
  gid : JValue
  vendor : JValue
  type : JValue
  title : JValue
  variants : JValue
  image_url : String
deriving Repr, Inhabited

/-- DetailsSpider.process_product_data: build the API record, joining the
image by product id with empty-string default; any exception inside is
caught and drops the record, and a record whose id or title is falsy is
dropped as well. -/
def process_product_data (raw_product : JValue) (image_mapping : List (Int × String)) : Option ProductData :=
  match (do
    let product_id ← jGet raw_product "id"
    let pid := product_id.getD .null
    let gid ← jGetD raw_product "gid" (.str "")
    let vendor ← jGetD raw_product "vendor" (.str "")
    let ty ← jGetD raw_product "type" (.str "")
    let title ← extract_product_name raw_product
    let variants ← jGetD raw_product "variants" (.arr [])
    let image_url ← imageLookupGet image_mapping pid
    pure (ProductData.mk pid gid vendor ty title variants image_url) : Except Unit ProductData) with
  | .error _ => none
  | .ok pd => if jTruthy pd.id && jTruthy pd.title then some pd else none

/-- DetailsSpider.extract_products_from_js: stage 1 (meta products), stage 2
(image mapping), then the per-product processing loop keeping the non-None
results in order. -/
def extract_products_from_js (html : String) : Except Unit (List ProductData) := do
  let metaVal ← extract_meta_products html
  let image_mapping ← extract_images_from_web_pixels html
  let meta_products ← pyIter metaVal
  pure (meta_products.filterMap (fun p => process_product_data p image_mapping))

/-- The clothing type enumeration of Clothe.ClothingType. -/
inductive ClothingType where
  | SHIRT | PANTS | DRESS | SHOES | JACKET | SWEATER | SHORTS | SKIRT
  | BLOUSE | HOODIE | COAT | JEANS | ACCESSORIES | POLERA | OTHER
deriving DecidableEq, Repr, Inhabited

/-- The fixed vendor-label translation table type_mapping of
CreateClotheFromScrapedDataSerializer.create, with the byte-exact labels of
the source (the second label carries the mojibake of the source file). -/
def type_mapping : List (String × ClothingType) :=
  [("Shorts", .SHORTS),
   ("Pantal√≥n", .PANTS),
   ("Polera", .POLERA),
   ("Accesorio", .ACCESSORIES)]

/-- type_mapping.get(label, Clothe.ClothingType.OTHER). -/
def mapClothingType (label : String) : ClothingType :=
  ((type_mapping.find? (fun kv => kv.1 == label)).map Prod.snd).getD .OTHER

/-- A row of the Store table (the fields the ingestion path touches). -/
structure StoreRow where
  id : Nat
  name : String
  description : String
  contact_number : String
  site_url : Option String
deriving DecidableEq, Repr, Inhabited

/-- A row of the Clothe table. -/
structure ClotheRow where
  id : Nat
  name : String
  type : ClothingType
  image : Option String
  image_url : Option String
  shopify_id : Option Int
  gid : Option String
  vendor : Option String
  base_price : Option Rat
  variants : List JValue
  user : Option Nat
  store : Option Nat
deriving Repr, Inhabited

/-- The database state seen by the ingestion path. -/
structure DB where
  stores : List StoreRow
  clothes : List ClotheRow
  nextStoreId : Nat
  nextClotheId : Nat
deriving Repr, Inhabited

/-- Store.objects.get_or_create(name=nm, defaults=...): one matching row is
returned as is, none triggers an insert, several raise
MultipleObjectsReturned. -/
def store_get_or_create (db : DB) (nm dsc cn : String) (su : Option String) :
    Except Unit (StoreRow × Bool × DB) :=
  match db.stores.filter (fun s => s.name == nm) with
  | [] =>
      let s : StoreRow := ⟨db.nextStoreId, nm, dsc, cn, su⟩
      .ok (s, true, { db with stores := db.stores ++ [s], nextStoreId := db.nextStoreId + 1 })
  | [s] => .ok (s, false, db)
  | _ => .error ()

/-- The check constraint clothe_belongs_to_user_or_store of Clothe.Meta:
exactly one of the user and store columns is set. -/
def ownerOk (user store : Option Nat) : Bool :=
  match user, store with
  | some _, none => true
  | none, some _ => true
  | _, _ => false

/-- The unique constraint on Clothe.shopify_id, checked against every other
row. -/
def shopifyUniqueOk (db : DB) (row : ClotheRow) : Bool :=
  match row.shopify_id with
  | none => true
  | some sid => db.clothes.all (fun c => c.id == row.id || !(c.shopify_id == some sid))

/-- Everything the database checks when a Clothe row is written. -/
def clotheWriteOk (db : DB) (row : ClotheRow) : Bool :=
  ownerOk row.user row.store && shopifyUniqueOk db row

/-- The defaults dict clothe_data of
CreateClotheFromScrapedDataSerializer.create; it has no user key. -/
structure ClotheDefaults where
  name : String
  type : ClothingType
  image : Option String
  image_url : Option String
  shopify_id : Option Int
  gid : Option String
  vendor : Option String
  base_price : Option Rat
  variants : List JValue
  store : Option Nat
deriving Repr, Inhabited

/-- Overwrite exactly the keys of the defaults dict on an existing row; the
user column is not among them and keeps its value. -/
def applyDefaults (c : ClotheRow) (d : ClotheDefaults) : ClotheRow :=
  { c with
    name := d.name
    type := d.type
    image := d.image
    image_url := d.image_url
    shopify_id := d.shopify_id
    gid := d.gid
    vendor := d.vendor
    base_price := d.base_price
    variants := d.variants
    store := d.store }

/-- The row inserted by the create path of update_or_create: the defaults
keys plus the model defaults for the unset columns — in particular user is
null. -/
def newClotheRow (n : Nat) (d : ClotheDefaults) : ClotheRow :=
  { id := n
    name := d.name
    type := d.type
    image := d.image
    image_url := d.image_url
    shopify_id := d.shopify_id
    gid := d.gid
    vendor := d.vendor
    base_price := d.base_price
    variants := d.variants
    user := none
    store := d.store }

/-- Clothe.objects.update_or_create(name=nm, defaults=d): an existing row
matched by name is overwritten with the defaults (created=False), no match
inserts a new row whose unset columns take the model defaults — user is
null (created=True), and several matches raise; every write is checked
against the model constraints as the database would. -/
def clothe_update_or_create (db : DB) (nm : String) (d : ClotheDefaults) :
    Except Unit (ClotheRow × Bool × DB) :=
  match db.clothes.filter (fun c => c.name == nm) with
  | [] =>
      let row := newClotheRow db.nextClotheId d
      if clotheWriteOk db row then
        .ok (row, true, { db with clothes := db.clothes ++ [row], nextClotheId := db.nextClotheId + 1 })
      else .error ()
  | [c] =>
      let row := applyDefaults c d
      if clotheWriteOk db row then
        .ok (row, false, { db with clothes := db.clothes.map (fun x => if x.id == row.id then row else x) })
      else .error ()
  | _ => .error ()

/-- The validated payload of CreateClotheFromScrapedDataSerializer: the
image_url layer distinguishes an absent key (outer none) from an explicit
null (inner none). -/
structure ScrapedProduct where
  id : Int
  gid : String
  vendor : String
  type : String
  title : String
  variants : List JValue
  image_url : Option (Option String)
deriving Repr, Inhabited

/-- The value validated_data.get("image_url", "") stored into the image_url
column: an absent key becomes the empty string, an explicit null stays
null. -/
def resolveImageUrl : Option (Option String) → Option String
  | none => some ""
  | some none => none
  | some (some s) => some s

/-- Python price / 100 on a JSON scalar: numbers divide exactly, bools count
as 0/1, anything else raises TypeError. -/
def jDiv100 : JValue → Except Unit Rat
  | .num q => .ok (q / 100)
  | .bool b => .ok ((if b then (1 : Rat) else 0) / 100)
  | _ => .error ()

/-- The clothe_data dict of CreateClotheFromScrapedDataSerializer.create:
title as name, the translated type, image explicitly None, the resolved
image URL, the scraped identifiers, the derived base price, the verbatim
variants and the resolved store. -/
def mkClotheData (v : ScrapedProduct) (storeId : Nat) (bp : Option Rat) : ClotheDefaults :=
  { name := v.title
    type := mapClothingType v.type
    image := none
    image_url := resolveImageUrl v.image_url
    shopify_id := some v.id
    gid := some v.gid
    vendor := some v.vendor
    base_price := bp
    variants := v.variants
    store := some storeId }

/-- The base-price derivation of
CreateClotheFromScrapedDataSerializer.create: none for an empty variant
list, else the first variant's price member (default 0) divided by 100. -/
def deriveBasePrice (variants : List JValue) : Except Unit (Option Rat) :=
  match variants with
  | [] => pure none
  | fv :: _ => do
      let p ← jGetD fv "price" (.num 0)
      let q ← jDiv100 p
      pure (some q)

/-- CreateClotheFromScrapedDataSerializer.create, the normalize-and-upsert
step: resolve the scraped-source store by get-or-create, derive the base
price, build clothe_data and update-or-create the row keyed by the title.
The created flag of update_or_create is exposed here although the Python
function drops it (it returns only the row, and never sets the _created
attribute the bulk path looks for). -/
def serializer_create (db : DB) (v : ScrapedProduct) : Except Unit (ClotheRow × Bool × DB) := do
  let sres ← store_get_or_create db "Rehabclo" "Rehabclo" "+569000000000" (some "https://rehabclo.cl")
  let store := sres.1
  let db1 := sres.2.2
  let base_price ← deriveBasePrice v.variants
  clothe_update_or_create db1 v.title (mkClotheData v store.id base_price)

/-- A record as posted to the bulk endpoint, before field validation. -/
structure RawScrapedInput where
  id : Option JValue
  gid : Option JValue
  vendor : Option JValue
  type : Option JValue
  title : Option JValue
  variants : Option JValue
  image_url : Option JValue
deriving Repr, Inhabited

/-- A DRF CharField (required, blank not allowed): a nonblank string,
returned trimmed. -/
def validCharField : Option JValue → Option String
  | some (.str s) => if trimWs s = "" then none else some (trimWs s)
  | _ => none

/-- A DRF IntegerField on JSON input, for integral payloads (the claims only
exercise integer or missing ids). -/
def validIntField : Option JValue → Option Int
  | some (.num q) => if q.den = 1 then some q.num else none
  | _ => none

/-- Well-formed absolute http(s) URL; stands in for Django URLValidator on
the URLs the claims exercise. -/
def isValidHttpUrl (s : String) : Bool :=
  (urlScheme s == "http" || urlScheme s == "https") && !(urlNetloc s == "")

/-- The ListField(child=DictField()) variants field. -/
def validVariantsField : Option JValue → Option (List JValue)
  | some (.arr l) =>
      if l.all (fun v => match v with | .obj _ => true | _ => false) then some l else none
  | _ => none

/-- The URLField(required=False, allow_blank=True, allow_null=True)
image_url field. -/
def validImageUrlField : Option JValue → Option (Option (Option String))
  | none => some none
  | some .null => some (some none)
  | some (.str s) =>
      if s = "" then some (some (some ""))
      else if isValidHttpUrl s then some (some (some s)) else none
  | _ => none

/-- Field validation of CreateClotheFromScrapedDataSerializer: every
required field present and well-typed, or the record is invalid. -/
def validateScraped (r : RawScrapedInput) : Option ScrapedProduct := do
  let id ← validIntField r.id
  let gid ← validCharField r.gid
  let vendor ← validCharField r.vendor
  let ty ← validCharField r.type
  let title ← validCharField r.title
  let variants ← validVariantsField r.variants
  let iu ← validImageUrlField r.image_url
  pure ⟨id, gid, vendor, ty, title, variants, iu⟩

/-- HTTP-level outcome classes of the bulk view. -/
inductive ApiErr where
  | badRequest | serverError
deriving DecidableEq, Repr

/-- The loop of BulkCreateClotheSerializer.create over already-validated
records: the inner is_valid() re-validation always passes on validated
data, each save feeds one row, and because CreateClotheFromScrapedDataSerializer.create
never sets _created on the row it returns, the hasattr test is always false
and every row is appended to updated_clothes — created_clothes stays empty.
An exception from a save propagates and aborts the loop. -/
def bulk_create (db : DB) (ps : List ScrapedProduct) :
    Except Unit (List ClotheRow × List ClotheRow × DB) := do
  let r ← ps.foldlM (fun (acc : List ClotheRow × DB) p => do
      let res ← serializer_create acc.2 p
      pure (acc.1 ++ [res.1], res.2.2)) ([], db)
  pure ([], r.1, r.2)

/-- The response body of the bulk view on success. -/
structure BulkSummary where
  created : List ClotheRow
  updated : List ClotheRow
  total_created : Nat
  total_updated : Nat
deriving Repr, Inhabited

/-- bulk_create_clothes_from_scraped_data, the view behind
POST /clothe/bulk-from-scraped/: BulkCreateClotheSerializer.is_valid()
validates every record of the batch up front (products is a nested
many=True serializer), so one invalid record rejects the whole batch with
400 before anything is written; only a fully valid batch reaches the
create loop. -/
def bulk_endpoint (db : DB) (inputs : List RawScrapedInput) :
    Except ApiErr (BulkSummary × DB) :=
  match inputs.mapM validateScraped with
  | none => .error .badRequest
  | some ps =>
      match bulk_create db ps with
      | .error _ => .error .serverError
      | .ok (c, u, db2) =>
          .ok ({ created := c
                 updated := u
                 total_created := c.length
                 total_updated := u.length }, db2)

/-- Minimum of a nonempty list of rationals (head default for totality). -/
def listMin : List Rat → Rat
  | [] => 0
  | x :: xs => xs.foldl min x

/-- Maximum of a nonempty list of rationals (head default for totality). -/
def listMax : List Rat → Rat
  | [] => 0
  | x :: xs => xs.foldl max x

/-- Numeric value of a JSON scalar under Python comparison and division
(ints, floats and bools); none for values min() or the division would
choke on. -/
def jNumVal : JValue → Option Rat
  | .num q => some q
  | .bool b => some (if b then 1 else 0)
  | _ => none

/-- The list comprehension of Clothe.get_price_range: one pass over the
variants keeping each truthy price member (the comprehension's value
expression variant.get("price", 0) equals that member whenever the filter
variant.get("price") is truthy); a non-dict variant raises. -/
def collectPrices : List JValue → Except Unit (List JValue)
  | [] => .ok []
  | v :: rest => do
      let p ← jGet v "price"
      let tail ← collectPrices rest
      match p with
      | some pv => if jTruthy pv then pure (pv :: tail) else pure tail
      | none => pure tail

/-- Numeric values of a list of JSON scalars, as min(), max() and the
division read them; none when one of them would make Python raise. -/
def numsOf : List JValue → Option (List Rat)
  | [] => some []
  | v :: rest => do
      let q ← jNumVal v
      let qs ← numsOf rest
      pure (q :: qs)

/-- Clothe.get_price_range: an empty variant list yields the base price as
both ends; otherwise the truthy price members are collected, an empty
collection again yields the base price pair, and a nonempty one yields
min and max each divided by 100. -/
def get_price_range (c : ClotheRow) : Except Unit (Option Rat × Option Rat) :=
  if c.variants.isEmpty then .ok (c.base_price, c.base_price)
  else do
    let prices ← collectPrices c.variants
    if prices.isEmpty then .ok (c.base_price, c.base_price)
    else
      match numsOf prices with
      | none => .error ()
      | some qs => .ok (some (listMin qs / 100), some (listMax qs / 100))

/-- The serialized price_range member of ClotheSerializer. -/
inductive PriceRange where
  | single (price : Option Rat)
  | range (min_price max_price : Option Rat)
deriving DecidableEq, Repr

/-- Python float(x) if x else None on an optional numeric value. -/
def floatIfTruthy : Option Rat → Option Rat
  | some q => if q = 0 then none else some q
  | none => none

/-- ClotheSerializer.get_price_range: equal ends collapse to a single price
member, unequal ends are reported as a min-max pair, each passed through
the float-if-truthy guard. -/
def serialize_price_range (c : ClotheRow) : Except Unit PriceRange := do
  let mm ← get_price_range c
  if mm.1 = mm.2 then pure (.single (floatIfTruthy mm.1))
  else pure (.range (floatIfTruthy mm.1) (floatIfTruthy mm.2))

/-- Modelled from the claim wording of the image-normalization sentence
(spec section 4.1 step 3): a path with no scheme — rather than a path not
starting with http — is joined to the origin, and anything already absolute
passes through unchanged.  Kept only to be compared with
normalize_image_src, the function the source implements. -/
def claimed_normalize_image_src (src : String) : String :=
  if pyStartsWith src "//" then "https:" ++ src
  else if pyStartsWith src "/" then "https://rehabclo.cl" ++ src
  else if urlScheme src = "" then
    "https://rehabclo.cl/" ++ String.mk (src.data.dropWhile (fun c => c = '/'))
  else src

/-- Modelled from the claim wording about get_price_range: an item all of
whose variants lack a price maps to the base-price pair, and an item with
at least one priced variant maps to the minimum and maximum of the prices
carried by its priced variants, each divided by 100 — with price zero
counting as a price, as the words say.  Kept only to be compared with
get_price_range, the method the source implements. -/
def claimed_price_range (c : ClotheRow) : Option Rat × Option Rat :=
  let priced := c.variants.filterMap (fun v =>
    match v with
    | .obj kvs =>
        match jLookup kvs "price" with
        | some (.num q) => some q
        | _ => none
    | _ => none)
  if priced.isEmpty then (c.base_price, c.base_price)
  else (some (listMin priced / 100), some (listMax priced / 100))

/-- A meta product object of the shape the storefront emits: an integer id,
the three string name fields and variants carrying string names. -/
def mkMetaProduct (i : Int) (t n pt : String) (vnames : List String) : JValue :=
  .obj [("id", .num (i : Rat)), ("title", .str t), ("name", .str n),
        ("product_title", .str pt),
        ("variants", .arr (vnames.map (fun s => .obj [("name", .str s)])))]

/-- A variant dict carrying a numeric price, or no price member at all. -/
def mkPriceVariant : Option Rat → JValue
  | none => .obj []
  | some q => .obj [("price", .num q)]

/-- A catalog row over such variants, the family quantified over by the
price-range analysis. -/
def mkPricedRow (bp : Option Rat) (pvs : List (Option Rat)) : ClotheRow :=
  ⟨0, "X", .OTHER, none, none, none, none, none, bp, pvs.map mkPriceVariant, none, some 1⟩

/-- The empty database. -/
def dbEmpty : DB := ⟨[], [], 1, 1⟩

/-- The sample payload of the view documentation in api/views.py. -/
def prodSample : ScrapedProduct :=
  ⟨7731842056254, "gid://shopify/Product/7731842056254", "REHAB CLO.", "Shorts",
   "Jorts Ultra Baggy Black",
   [.obj [("price", .num 3799000), ("public_title", .str "S/28US")]],
   some (some "https://example.com/image.jpg")⟩

/-- The row serializer_create writes for prodSample on the empty database. -/
def rowSample : ClotheRow :=
  ⟨1, "Jorts Ultra Baggy Black", .SHORTS, none, some "https://example.com/image.jpg",
   some 7731842056254, some "gid://shopify/Product/7731842056254", some "REHAB CLO.",
   some ((3799000 : Rat) / 100), [.obj [("price", .num 3799000), ("public_title", .str "S/28US")]],
   none, some 1⟩

/-- The database state after that first ingestion call. -/
def db1Sample : DB :=
  ⟨[⟨1, "Rehabclo", "Rehabclo", "+569000000000", some "https://rehabclo.cl"⟩],
   [rowSample], 2, 2⟩

/-- First record of the bulk batch exercised below: valid. -/
def bulkRec1 : RawScrapedInput :=
  ⟨some (.num 1), some (.str "g1"), some (.str "v"), some (.str "Shorts"),
   some (.str "A"), some (.arr []), none⟩

/-- Second record of the bulk batch: its id is missing, so field validation
fails on it. -/
def bulkRec2 : RawScrapedInput :=
  ⟨none, some (.str "g2"), some (.str "v"), some (.str "Shorts"),
   some (.str "B"), some (.arr []), none⟩

/-- Third record of the bulk batch: valid. -/
def bulkRec3 : RawScrapedInput :=
  ⟨some (.num 3), some (.str "g3"), some (.str "v"), some (.str "Shorts"),
   some (.str "C"), some (.arr []), none⟩

/-- A page holding only a well-formed meta block. -/
def htmlMetaOnly : String :=
  "var meta = \x7b\"products\":[\x7b\"id\":7,\"title\":\"Tee\",\"variants\":[]\x7d]\x7d;"

/-- The record the extractor produces from htmlMetaOnly. -/
def pdSample : ProductData :=
  ⟨.num 7, .str "", .str "", .str "", .str "Tee", .arr [], ""⟩

/-- A page with neither marker. -/
def htmlPlain : String := "xyz"

/-- A page without the meta marker whose web-pixels block is well-formed
JSON but carries a non-dict variant entry: the loop then raises an
AttributeError the except clause does not catch. -/
def htmlBadPixels : String :=
  "NOPE webPixelsManagerAPI.publish(\"collection_viewed\", \x7b\"collection\":\x7b\"productVariants\":[5]\x7d\x7d)"

/-- A page with both blocks well-formed, joining product 7 to an image. -/
def htmlBoth : String :=
  "AAA var meta = \x7b\"products\":[\x7b\"id\":7,\"title\":\"Tee\",\"variants\":[]\x7d]\x7d; BBB webPixelsManagerAPI.publish(\"collection_viewed\", \x7b\"collection\":\x7b\"productVariants\":[\x7b\"product\":\x7b\"id\":7,\"title\":\"t\"\x7d,\"image\":\x7b\"src\":\"//cdn.x.com/a.jpg\"\x7d\x7d]\x7d\x7d) CCC"

/-- A catalog row with one zero-priced and one positive-priced variant; the
zero price is falsy, so get_price_range ignores that variant. -/
def cexPriceRow : ClotheRow :=
  ⟨1, "X", .OTHER, none, some "", none, none, none, none,
   [.obj [("price", .num 0)], .obj [("price", .num 200)]], none, some 1⟩

/-! Theorems.  Shared helper lemmas come first, then one theorem per claim
with its witness or counterexample. -/

theorem except_bind_ok {ε α β : Type} {e : Except ε α} {k : α → Except ε β} {b : β}
    (h : (e >>= k) = .ok b) : ∃ a, e = .ok a ∧ k a = .ok b := by
  cases e with
  | error u => simp [Bind.bind, Except.bind] at h
  | ok a => exact ⟨a, rfl, by simpa [Bind.bind, Except.bind] using h⟩

theorem helper_map_id {α : Type} (l : List α) (f : α → α) (h : ∀ x ∈ l, f x = x) :
    l.map f = l := by
  induction l with
  | nil => rfl
  | cons a t ih =>
      simp only [List.map_cons, h a (by simp)]
      rw [ih (fun x hx => h x (by simp [hx]))]

/-- C1: the claim says a batch of 3 records where record 2 has no id still
upserts the other two with total_created + total_updated = 2.  The code
does not: BulkCreateClotheSerializer validates every record of the batch up
front through its nested many=True serializer, so the one invalid record
makes the whole POST fail with 400 and nothing is written — the per-record
skip logic inside its create method is unreachable for invalid records.
This theorem evaluates the model at exactly that batch: records 1 and 3
validate, record 2 does not, and the endpoint answers with the 400 error
instead of a summary. -/
theorem c1_bulk_batch_rejected :
    validateScraped bulkRec2 = none ∧
    (validateScraped bulkRec1).isSome = true ∧
    (validateScraped bulkRec3).isSome = true ∧
    bulk_endpoint dbEmpty [bulkRec1, bulkRec2, bulkRec3] = .error .badRequest := by
  exact ⟨by rfl, by rfl, by rfl, by rfl⟩

/-- C4 counterexample: the claim says a path that is already an absolute
URL passes through unchanged and only paths with no scheme are joined to
the origin.  The code instead tests startswith http, so the absolute URL
ftp://cdn.x.com/a.jpg (scheme ftp, host cdn.x.com) is joined to the origin
rather than passed through. -/
theorem c4_counterexample_ftp :
    urlScheme "ftp://cdn.x.com/a.jpg" = "ftp" ∧
    urlNetloc "ftp://cdn.x.com/a.jpg" = "cdn.x.com" ∧
    normalize_image_src "ftp://cdn.x.com/a.jpg" = "https://rehabclo.cl/ftp://cdn.x.com/a.jpg" ∧
    claimed_normalize_image_src "ftp://cdn.x.com/a.jpg" = "ftp://cdn.x.com/a.jpg" ∧
    normalize_image_src "ftp://cdn.x.com/a.jpg" ≠ claimed_normalize_image_src "ftp://cdn.x.com/a.jpg" := by
  exact ⟨by rfl, by rfl, by rfl, by rfl, by decide⟩

theorem helper_assocSet_mem {m : List (Int × String)} {k : Int} {v : String}
    {p : Int × String} (h : p ∈ assocSet m k v) : p ∈ m ∨ p = (k, v) := by
  unfold assocSet at h
  split at h
  · rcases List.mem_map.mp h with ⟨q, hq, hqe⟩
    by_cases hk : q.1 = k
    · right
      simp [hk] at hqe
      exact hqe.symm
    · left
      simp [hk] at hqe
      exact hqe ▸ hq
  · rcases List.mem_append.mp h with hq | hq
    · exact Or.inl hq
    · exact Or.inr (List.mem_singleton.mp hq)

theorem helper_processVariantEntry_pres {m m2 : List (Int × String)} {variant : JValue}
    (h : processVariantEntry m variant = .ok m2)
    (hm : ∀ p ∈ m, urlScheme p.2 ≠ "" ∧ urlNetloc p.2 ≠ "") :
    ∀ p ∈ m2, urlScheme p.2 ≠ "" ∧ urlNetloc p.2 ≠ "" := by
  unfold processVariantEntry at h
  obtain ⟨pi, hpi, h⟩ := except_bind_ok h
  obtain ⟨pid0, hpid, h⟩ := except_bind_ok h
  obtain ⟨ii, hii, h⟩ := except_bind_ok h
  obtain ⟨src, hsrc, h⟩ := except_bind_ok h
  split at h
  · -- the src member is a string
    dsimp only at h
    split at h
    · -- both id and src truthy
      split at h
      · -- the normalized URL has scheme and netloc
        rename_i hgood
        split at h
        · -- int() succeeded: the new entry is inserted
          simp only [Except.ok.injEq] at h
          subst h
          intro p hp
          rcases helper_assocSet_mem hp with hin | hev
          · exact hm p hin
          · rw [hev]
            exact hgood
        · -- int() raised, swallowed by the inner except
          simp only [Except.ok.injEq] at h
          subst h
          exact hm
      · -- invalid URL skipped
        simp only [Except.ok.injEq] at h
        subst h
        exact hm
    · -- falsy id or src: entry ignored
      simp only [Except.ok.injEq] at h
      subst h
      exact hm
  · -- truthy non-string src raises; the ok hypothesis rules the branch out
    dsimp only at h
    split at h
    · exact Except.noConfusion h
    · simp only [Except.ok.injEq] at h
      subst h
      exact hm

theorem helper_imageFold_pres (l : List JValue) :
    ∀ m m2 : List (Int × String),
      (∀ p ∈ m, urlScheme p.2 ≠ "" ∧ urlNetloc p.2 ≠ "") →
      l.foldlM processVariantEntry m = .ok m2 →
      ∀ p ∈ m2, urlScheme p.2 ≠ "" ∧ urlNetloc p.2 ≠ "" := by
  induction l with
  | nil =>
      intro m m2 hm h
      simp only [List.foldlM] at h
      cases h
      exact hm
  | cons a t ih =>
      intro m m2 hm h
      simp only [List.foldlM] at h
      obtain ⟨m1, h1, h2⟩ := except_bind_ok h
      exact ih m1 m2 (helper_processVariantEntry_pres h1 hm) h2

theorem helper_extract_images_good {html : String} {m : List (Int × String)}
    (h : extract_images_from_web_pixels html = .ok m) :
    ∀ p ∈ m, urlScheme p.2 ≠ "" ∧ urlNetloc p.2 ≠ "" := by
  unfold extract_images_from_web_pixels at h
  split at h
  · cases h
    intro p hp
    cases hp
  · split at h
    · cases h
      intro p hp
      cases hp
    · obtain ⟨coll, hcoll, h⟩ := except_bind_ok h
      obtain ⟨pvsv, hpvsv, h⟩ := except_bind_ok h
      obtain ⟨pvs, hpvs, h⟩ := except_bind_ok h
      exact helper_imageFold_pres pvs [] m (by intro p hp; cases hp) h

/-- C4 (amended): the normalization is case-wise on the literal prefix of
the path — two slashes gain the https prefix, one slash is prefixed with
the storefront origin, a path not starting with the four characters http
(rather than: with no scheme) is joined to the origin after stripping
leading slashes, and a path starting with http (rather than: any absolute
URL) passes through unchanged; the three concrete examples of the claim
hold; and every entry inserted into the ImageLookup parses as an absolute
URL with both a scheme and a host, invalid results being skipped. -/
theorem c4_image_url_normalization :
    (∀ src : String,
      (pyStartsWith src "//" = true → normalize_image_src src = "https:" ++ src) ∧
      (pyStartsWith src "//" = false → pyStartsWith src "/" = true →
        normalize_image_src src = "https://rehabclo.cl" ++ src) ∧
      (pyStartsWith src "//" = false → pyStartsWith src "/" = false →
        pyStartsWith src "http" = false →
        normalize_image_src src = "https://rehabclo.cl/" ++ String.mk (src.data.dropWhile (fun c => c = '/'))) ∧
      (pyStartsWith src "//" = false → pyStartsWith src "/" = false →
        pyStartsWith src "http" = true → normalize_image_src src = src)) ∧
    normalize_image_src "//cdn.x.com/a.jpg" = "https://cdn.x.com/a.jpg" ∧
    normalize_image_src "/img/a.jpg" = "https://rehabclo.cl/img/a.jpg" ∧
    normalize_image_src "https://cdn.x.com/a.jpg" = "https://cdn.x.com/a.jpg" ∧
    (∀ (html : String) (m : List (Int × String)),
      extract_images_from_web_pixels html = .ok m →
      ∀ p ∈ m, urlScheme p.2 ≠ "" ∧ urlNetloc p.2 ≠ "") := by
  refine ⟨?_, by rfl, by rfl, by rfl, ?_⟩
  · intro src
    refine ⟨?_, ?_, ?_, ?_⟩
    · intro h1
      simp [normalize_image_src, h1]
    · intro h1 h2
      simp [normalize_image_src, h1, h2]
    · intro h1 h2 h3
      simp [normalize_image_src, h1, h2, h3]
    · intro h1 h2 h3
      simp [normalize_image_src, h1, h2, h3]
  · intro html m h
    exact helper_extract_images_good h

/-- C4 witness: the amended theorem applied at the slash-prefixed example
path and at the page carrying a well-formed web-pixels block. -/
theorem c4_witness :
    normalize_image_src "/img/a.jpg" = "https://rehabclo.cl" ++ "/img/a.jpg" ∧
    extract_images_from_web_pixels htmlBoth = .ok [(7, "https://cdn.x.com/a.jpg")] ∧
    urlScheme "https://cdn.x.com/a.jpg" ≠ "" := by
  refine ⟨((c4_image_url_normalization.1 "/img/a.jpg").2.1 (by rfl) (by rfl)), by rfl, ?_⟩
  exact ((c4_image_url_normalization.2.2.2.2 htmlBoth [(7, "https://cdn.x.com/a.jpg")] (by rfl))
    (7, "https://cdn.x.com/a.jpg") (by simp)).1

theorem helper_serializer_create_inv {db : DB} {v : ScrapedProduct} {row : ClotheRow}
    {cr : Bool} {db1 : DB} (h : serializer_create db v = .ok (row, cr, db1)) :
    ∃ s b dbA bp,
      store_get_or_create db "Rehabclo" "Rehabclo" "+569000000000" (some "https://rehabclo.cl") =
        .ok (s, b, dbA) ∧
      deriveBasePrice v.variants = .ok bp ∧
      clothe_update_or_create dbA v.title (mkClotheData v s.id bp) = .ok (row, cr, db1) := by
  unfold serializer_create at h
  obtain ⟨sres, hs, h⟩ := except_bind_ok h
  obtain ⟨bp, hbp, h⟩ := except_bind_ok h
  exact ⟨sres.1, sres.2.1, sres.2.2, bp, by rw [← hs], hbp, h⟩

theorem helper_uoc_fields {db : DB} {nm : String} {d : ClotheDefaults} {row : ClotheRow}
    {cr : Bool} {db2 : DB} (h : clothe_update_or_create db nm d = .ok (row, cr, db2)) :
    row.name = d.name ∧ row.type = d.type ∧ row.image = d.image ∧
    row.image_url = d.image_url ∧ row.shopify_id = d.shopify_id ∧ row.gid = d.gid ∧
    row.vendor = d.vendor ∧ row.base_price = d.base_price ∧ row.variants = d.variants ∧
    row.store = d.store ∧ clotheWriteOk db row = true := by
  unfold clothe_update_or_create at h
  split at h
  · -- no row with this name: insert
    dsimp only at h
    split at h
    · rename_i hok
      simp only [Except.ok.injEq, Prod.mk.injEq] at h
      obtain ⟨hrow, _, _⟩ := h
      subst hrow
      exact ⟨rfl, rfl, rfl, rfl, rfl, rfl, rfl, rfl, rfl, rfl, hok⟩
    · exact Except.noConfusion h
  · -- one row: overwrite the defaults keys
    dsimp only at h
    split at h
    · rename_i hok
      simp only [Except.ok.injEq, Prod.mk.injEq] at h
      obtain ⟨hrow, _, _⟩ := h
      subst hrow
      exact ⟨rfl, rfl, rfl, rfl, rfl, rfl, rfl, rfl, rfl, rfl, hok⟩
    · exact Except.noConfusion h
  · exact Except.noConfusion h

/-- C5: for every record that ingestion upserts, the base price of the
written row is the first variant price divided by 100 when the variant list
is nonempty and the first variant carries a numeric price, and null when
the variant list is empty. -/
theorem c5_base_price_derivation {db : DB} {v : ScrapedProduct} {row : ClotheRow}
    {cr : Bool} {db1 : DB} (h : serializer_create db v = .ok (row, cr, db1)) :
    (v.variants = [] → row.base_price = none) ∧
    (∀ kvs rest p, v.variants = .obj kvs :: rest → jLookup kvs "price" = some (.num p) →
      row.base_price = some (p / 100)) := by
  obtain ⟨s, b, dbA, bp, hs, hbp, huoc⟩ := helper_serializer_create_inv h
  have hfields := helper_uoc_fields huoc
  have hbase : row.base_price = bp := hfields.2.2.2.2.2.2.2.1
  constructor
  · intro hempty
    rw [hempty] at hbp
    unfold deriveBasePrice at hbp
    simp only [pure, Except.pure, Except.ok.injEq] at hbp
    rw [hbase, ← hbp]
  · intro kvs rest p hvar hprice
    rw [hvar] at hbp
    unfold deriveBasePrice at hbp
    simp only [jGetD, jGet, jLookup, hprice, Bind.bind, Except.bind, Option.getD, jDiv100,
      pure, Except.pure, Except.ok.injEq] at hbp
    rw [hbase, ← hbp]

/-- C5 witness: the documented sample payload, whose single variant has
price 3799000, yields a written row with base price 3799000 / 100 = 37990. -/
theorem c5_witness :
    serializer_create dbEmpty prodSample = .ok (rowSample, true, db1Sample) ∧
    rowSample.base_price = some ((3799000 : Rat) / 100) ∧
    ((3799000 : Rat) / 100) = 37990 := by
  have h1 : serializer_create dbEmpty prodSample = .ok (rowSample, true, db1Sample) := by rfl
  refine ⟨h1, ?_, by norm_num⟩
  exact (c5_base_price_derivation h1).2
    [("price", .num 3799000), ("public_title", .str "S/28US")] [] 3799000 rfl rfl

/-- C6: the stored clothing type of every ingested row is the image of the
vendor label under the fixed four-entry translation table, labels outside
the table mapping to OTHER; in particular Shorts maps to SHORTS and the
unknown label Zzz maps to OTHER. -/
theorem c6_type_mapping {db : DB} {v : ScrapedProduct} {row : ClotheRow}
    {cr : Bool} {db1 : DB} (h : serializer_create db v = .ok (row, cr, db1)) :
    row.type = mapClothingType v.type ∧
    mapClothingType "Shorts" = ClothingType.SHORTS ∧
    mapClothingType "Zzz" = ClothingType.OTHER ∧
    (∀ l, type_mapping.find? (fun kv => kv.1 == l) = none → mapClothingType l = ClothingType.OTHER) ∧
    type_mapping.length = 4 := by
  obtain ⟨s, b, dbA, bp, hs, hbp, huoc⟩ := helper_serializer_create_inv h
  obtain ⟨hn, ht, _, _, _, _, _, _, _, _, _⟩ := helper_uoc_fields huoc
  refine ⟨ht, by rfl, by rfl, ?_, by rfl⟩
  intro l hl
  unfold mapClothingType
  rw [hl]
  rfl

/-- C6 witness: the sample payload with vendor label Shorts is stored with
type SHORTS, and the unknown label Zzz maps to OTHER. -/
theorem c6_witness :
    rowSample.type = mapClothingType prodSample.type ∧
    mapClothingType prodSample.type = ClothingType.SHORTS ∧
    mapClothingType "Zzz" = ClothingType.OTHER := by
  have h1 : serializer_create dbEmpty prodSample = .ok (rowSample, true, db1Sample) := by rfl
  exact ⟨(c6_type_mapping h1).1, by rfl, by rfl⟩

theorem helper_store_goc_name {db : DB} {nm a b : String} {c : Option String}
    {s : StoreRow} {cr : Bool} {db1 : DB}
    (h : store_get_or_create db nm a b c = .ok (s, cr, db1)) : s.name = nm := by
  unfold store_get_or_create at h
  split at h
  · simp only [Except.ok.injEq, Prod.mk.injEq] at h
    obtain ⟨hs, _, _⟩ := h
    subst hs
    rfl
  · rename_i s0 heq
    simp only [Except.ok.injEq, Prod.mk.injEq] at h
    obtain ⟨hs, _, _⟩ := h
    subst hs
    have hmem : s0 ∈ db.stores.filter (fun x => x.name == nm) := by
      rw [heq]
      exact List.mem_singleton.mpr rfl
    have := (List.mem_filter.mp hmem).2
    exact eq_of_beq this
  · exact Except.noConfusion h

/-- C9: every row the ingestion path actually writes has its store owner
set to the store resolved by get-or-create on the fixed name Rehabclo and
its user owner unset, so the exactly-one-owner invariant of the model's
check constraint holds for the written row.  (When an existing same-name
row is owned by a user, the update would set both owners, the check
constraint rejects the write, and no row is created or updated at all —
such attempts fall outside this statement's ok hypothesis.) -/
theorem c9_owner_invariant {db : DB} {v : ScrapedProduct} {row : ClotheRow}
    {cr : Bool} {db1 : DB} (h : serializer_create db v = .ok (row, cr, db1)) :
    row.user = none ∧
    (∃ s b dbA,
      store_get_or_create db "Rehabclo" "Rehabclo" "+569000000000" (some "https://rehabclo.cl") =
        .ok (s, b, dbA) ∧ s.name = "Rehabclo" ∧ row.store = some s.id) ∧
    ownerOk row.user row.store = true := by
  obtain ⟨s, b, dbA, bp, hs, hbp, huoc⟩ := helper_serializer_create_inv h
  obtain ⟨_, _, _, _, _, _, _, _, _, hst, hok⟩ := helper_uoc_fields huoc
  have hstore : row.store = some s.id := hst
  have howner : ownerOk row.user row.store = true := by
    unfold clotheWriteOk at hok
    rw [Bool.and_eq_true] at hok
    exact hok.1
  have huser : row.user = none := by
    cases hu : row.user with
    | none => rfl
    | some u =>
        rw [hu, hstore] at howner
        simp [ownerOk] at howner
  exact ⟨huser, ⟨s, b, dbA, hs, helper_store_goc_name hs, hstore⟩, howner⟩

/-- C9 witness: the sample ingestion write leaves the user column null and
stores the row under the Rehabclo store, satisfying the owner invariant. -/
theorem c9_witness :
    rowSample.user = none ∧ rowSample.store = some 1 ∧
    ownerOk rowSample.user rowSample.store = true := by
  have h1 : serializer_create dbEmpty prodSample = .ok (rowSample, true, db1Sample) := by rfl
  exact ⟨(c9_owner_invariant h1).1, by rfl, (c9_owner_invariant h1).2.2⟩

theorem helper_store_goc_post {db : DB} {nm a b : String} {c : Option String}
    {s : StoreRow} {cr : Bool} {db1 : DB}
    (h : store_get_or_create db nm a b c = .ok (s, cr, db1)) :
    db1.stores.filter (fun x => x.name == nm) = [s] ∧
    db1.clothes = db.clothes ∧ db1.nextClotheId = db.nextClotheId := by
  unfold store_get_or_create at h
  split at h
  · rename_i heq
    simp only [Except.ok.injEq, Prod.mk.injEq] at h
    obtain ⟨hs, _, hdb⟩ := h
    subst hs
    subst hdb
    refine ⟨?_, rfl, rfl⟩
    dsimp only
    rw [List.filter_append, heq]
    simp [List.filter]
  · rename_i s0 heq
    simp only [Except.ok.injEq, Prod.mk.injEq] at h
    obtain ⟨hs, _, hdb⟩ := h
    subst hs
    subst hdb
    exact ⟨heq, rfl, rfl⟩
  · exact Except.noConfusion h

theorem helper_store_goc_found {db : DB} {nm a b : String} {c : Option String}
    {s : StoreRow} (h : db.stores.filter (fun x => x.name == nm) = [s]) :
    store_get_or_create db nm a b c = .ok (s, false, db) := by
  unfold store_get_or_create
  rw [h]

theorem helper_uoc_create {db : DB} {nm : String} {d : ClotheDefaults}
    (hf : db.clothes.filter (fun c => c.name == nm) = [])
    (hok : clotheWriteOk db (newClotheRow db.nextClotheId d) = true) :
    clothe_update_or_create db nm d =
      .ok (newClotheRow db.nextClotheId d, true,
        { db with
          clothes := db.clothes ++ [newClotheRow db.nextClotheId d]
          nextClotheId := db.nextClotheId + 1 }) := by
  unfold clothe_update_or_create
  rw [hf]
  dsimp only
  rw [hok]
  simp

theorem helper_uoc_update {db : DB} {nm : String} {d : ClotheDefaults} {c : ClotheRow}
    (hf : db.clothes.filter (fun c0 => c0.name == nm) = [c])
    (hok : clotheWriteOk db (applyDefaults c d) = true) :
    clothe_update_or_create db nm d =
      .ok (applyDefaults c d, false,
        { db with
          clothes := db.clothes.map
            (fun x => if x.id == (applyDefaults c d).id then applyDefaults c d else x) }) := by
  unfold clothe_update_or_create
  rw [hf]
  dsimp only
  rw [hok]
  simp

/-- C2: ingestion is idempotent.  Starting from any well-formed database
holding no row with the record's title, a successful normalize-and-upsert
reports created=True; the catalog then holds exactly one row with that
display name; and re-running the call with the identical input reports
created=False, returns the very same row, and leaves the database state —
hence every field of that row — unchanged. -/
theorem c2_normalize_upsert_idempotent (db : DB) (v : ScrapedProduct) (row : ClotheRow)
    (c1 : Bool) (db1 : DB)
    (hwf : db.clothes.all (fun c => decide (c.id < db.nextClotheId)) = true)
    (hname : db.clothes.filter (fun c => c.name == v.title) = [])
    (h1 : serializer_create db v = .ok (row, c1, db1)) :
    c1 = true ∧ row.name = v.title ∧
    db1.clothes.filter (fun c => c.name == v.title) = [row] ∧
    serializer_create db1 v = .ok (row, false, db1) := by
  obtain ⟨s, b, dbA, bp, hs, hbp, huoc⟩ := helper_serializer_create_inv h1
  obtain ⟨hsfilter, hclothes, hnext⟩ := helper_store_goc_post hs
  have hfA : dbA.clothes.filter (fun c => c.name == v.title) = [] := by
    rw [hclothes]
    exact hname
  unfold clothe_update_or_create at huoc
  rw [hfA] at huoc
  dsimp only at huoc
  split at huoc
  case isFalse => exact Except.noConfusion huoc
  case isTrue hok =>
  simp only [Except.ok.injEq, Prod.mk.injEq] at huoc
  obtain ⟨hrow, hc1, hdb1⟩ := huoc
  subst hrow
  subst hc1
  subst hdb1
  have hrname : (newClotheRow dbA.nextClotheId (mkClotheData v s.id bp)).name = v.title := rfl
  have hfil : (dbA.clothes ++ [newClotheRow dbA.nextClotheId (mkClotheData v s.id bp)]).filter
      (fun c => c.name == v.title) = [newClotheRow dbA.nextClotheId (mkClotheData v s.id bp)] := by
    rw [List.filter_append, hfA]
    simp [List.filter, newClotheRow, mkClotheData]
  refine ⟨rfl, hrname, hfil, ?_⟩
  -- the second run with the identical input
  have happ : applyDefaults (newClotheRow dbA.nextClotheId (mkClotheData v s.id bp))
      (mkClotheData v s.id bp) = newClotheRow dbA.nextClotheId (mkClotheData v s.id bp) := rfl
  have hwrite : clotheWriteOk
      (⟨dbA.stores, dbA.clothes ++ [newClotheRow dbA.nextClotheId (mkClotheData v s.id bp)],
        dbA.nextStoreId, dbA.nextClotheId + 1⟩ : DB)
      (newClotheRow dbA.nextClotheId (mkClotheData v s.id bp)) = true := by
    unfold clotheWriteOk at hok ⊢
    rw [Bool.and_eq_true] at hok ⊢
    refine ⟨hok.1, ?_⟩
    have hsh := hok.2
    unfold shopifyUniqueOk at hsh ⊢
    dsimp only [newClotheRow, mkClotheData] at hsh ⊢
    rw [List.all_append, Bool.and_eq_true]
    exact ⟨hsh, by simp⟩
  have hmap : (dbA.clothes ++ [newClotheRow dbA.nextClotheId (mkClotheData v s.id bp)]).map
      (fun x => if x.id == (applyDefaults (newClotheRow dbA.nextClotheId (mkClotheData v s.id bp))
          (mkClotheData v s.id bp)).id
        then applyDefaults (newClotheRow dbA.nextClotheId (mkClotheData v s.id bp))
          (mkClotheData v s.id bp)
        else x) =
      dbA.clothes ++ [newClotheRow dbA.nextClotheId (mkClotheData v s.id bp)] := by
    apply helper_map_id
    intro x hx
    rcases List.mem_append.mp hx with hin | hone
    · have hlt : x.id < db.nextClotheId := by
        rw [hclothes] at hin
        exact of_decide_eq_true (List.all_eq_true.mp hwf x hin)
      have hne : x.id ≠ dbA.nextClotheId := by
        rw [hnext]
        omega
      rw [happ, if_neg]
      simp only [newClotheRow, beq_iff_eq]
      exact hne
    · rw [List.mem_singleton.mp hone, happ]
      simp
  have hst2 : store_get_or_create
      (⟨dbA.stores, dbA.clothes ++ [newClotheRow dbA.nextClotheId (mkClotheData v s.id bp)],
        dbA.nextStoreId, dbA.nextClotheId + 1⟩ : DB)
      "Rehabclo" "Rehabclo" "+569000000000" (some "https://rehabclo.cl") =
      .ok (s, false,
        ⟨dbA.stores, dbA.clothes ++ [newClotheRow dbA.nextClotheId (mkClotheData v s.id bp)],
         dbA.nextStoreId, dbA.nextClotheId + 1⟩) :=
    helper_store_goc_found hsfilter
  have hupd : clothe_update_or_create
      (⟨dbA.stores, dbA.clothes ++ [newClotheRow dbA.nextClotheId (mkClotheData v s.id bp)],
        dbA.nextStoreId, dbA.nextClotheId + 1⟩ : DB)
      v.title (mkClotheData v s.id bp) =
      .ok (applyDefaults (newClotheRow dbA.nextClotheId (mkClotheData v s.id bp))
            (mkClotheData v s.id bp), false,
        { (⟨dbA.stores, dbA.clothes ++ [newClotheRow dbA.nextClotheId (mkClotheData v s.id bp)],
            dbA.nextStoreId, dbA.nextClotheId + 1⟩ : DB) with
          clothes := (dbA.clothes ++ [newClotheRow dbA.nextClotheId (mkClotheData v s.id bp)]).map
            (fun x => if x.id == (applyDefaults (newClotheRow dbA.nextClotheId (mkClotheData v s.id bp))
                (mkClotheData v s.id bp)).id
              then applyDefaults (newClotheRow dbA.nextClotheId (mkClotheData v s.id bp))
                (mkClotheData v s.id bp)
              else x) }) :=
    helper_uoc_update hfil hwrite
  unfold serializer_create
  rw [hst2]
  simp only [Bind.bind, Except.bind]
  rw [hbp]
  simp only [Bind.bind, Except.bind]
  rw [hupd, hmap, happ]

/-- C2 witness: ingesting the documented sample payload into the empty
database creates the row, and repeating the identical call reports
created=False and leaves the one-row catalog unchanged. -/
theorem c2_witness :
    serializer_create dbEmpty prodSample = .ok (rowSample, true, db1Sample) ∧
    serializer_create db1Sample prodSample = .ok (rowSample, false, db1Sample) ∧
    db1Sample.clothes.filter (fun c => c.name == prodSample.title) = [rowSample] := by
  have h1 : serializer_create dbEmpty prodSample = .ok (rowSample, true, db1Sample) := by rfl
  have hc := c2_normalize_upsert_idempotent dbEmpty prodSample rowSample true db1Sample
    (by rfl) (by rfl) h1
  exact ⟨h1, hc.2.2.2, hc.2.2.1⟩

/-- C3: over raw products with string name fields, an integer id and
variants carrying string names, the resolved display name follows the
fallback chain of extract_product_name: the first non-empty field among
title, name, product_title in that order; then, when a first variant
exists whose name is non-empty and contains the literal separator, the
left side of that name split on the separator (a product with no name
fields but one variant named Blue Shirt - M resolves to Blue Shirt); and
otherwise the literal string Product followed by the id (id 42 resolves to
Product 42). -/
theorem c3_name_fallback_chain (i : Int) (t n pt : String) (vnames : List String) :
    extract_product_name (mkMetaProduct i t n pt vnames) = .ok (
      if t ≠ "" then .str t
      else if n ≠ "" then .str n
      else if pt ≠ "" then .str pt
      else match vnames with
        | [] => .str ("Product " ++ intRepr i)
        | vn :: _ =>
            if vn = "" then .str ("Product " ++ intRepr i)
            else if (findSub " - ".data vn.data).isSome then .str (splitHead vn " - ")
            else .str ("Product " ++ intRepr i)) ∧
    extract_product_name (mkMetaProduct 1 "" "" "" ["Blue Shirt - M"]) = .ok (.str "Blue Shirt") ∧
    extract_product_name (mkMetaProduct 42 "" "" "" []) = .ok (.str "Product 42") := by
  refine ⟨?_, by rfl, by rfl⟩
  have hT : jGet (mkMetaProduct i t n pt vnames) "title" = .ok (some (.str t)) := rfl
  have hN : jGet (mkMetaProduct i t n pt vnames) "name" = .ok (some (.str n)) := rfl
  have hPT : jGet (mkMetaProduct i t n pt vnames) "product_title" = .ok (some (.str pt)) := rfl
  have hVS : jGet (mkMetaProduct i t n pt vnames) "variants" =
      .ok (some (.arr (vnames.map (fun s => .obj [("name", .str s)])))) := rfl
  have hID : jGetD (mkMetaProduct i t n pt vnames) "id" (.str "Unknown") =
      .ok (.num (i : Rat)) := rfl
  unfold extract_product_name
  simp only [hT, hN, hPT, hVS, hID, Bind.bind, Except.bind, Option.getD, jTruthy]
  by_cases ht : t = ""
  · simp only [ht, reduceIte, ne_eq, not_true_eq_false]
    by_cases hn : n = ""
    · simp only [hn, reduceIte, ne_eq, not_true_eq_false]
      by_cases hpt : pt = ""
      · simp only [hpt, reduceIte, ne_eq, not_true_eq_false]
        cases vnames with
        | nil =>
            simp [pyStr, Rat.den_intCast, Rat.num_intCast, intRepr, pure, Except.pure,
              Bind.bind, Except.bind]
        | cons vn rest =>
            simp only [List.map_cons, List.isEmpty_cons, Bool.false_eq_true, reduceIte,
              pyLen, List.length_cons, Bind.bind, Except.bind, pyIndex0, jGetD, jGet,
              jLookup, Option.getD, jTruthy]
            by_cases hvn : vn = ""
            · simp [hvn, pyContains, pyStr, Rat.den_intCast, Rat.num_intCast, intRepr,
                pure, Except.pure, Bind.bind, Except.bind]
            · simp only [hvn, reduceIte, pyContains, Bind.bind, Except.bind]
              by_cases hsep : (findSub " - ".data vn.data).isSome = true
              · simp [hsep, hvn, pure, Except.pure]
              · simp only [Bool.not_eq_true] at hsep
                simp [hsep, jGetD, jGet, jLookup, pyStr, Rat.den_intCast,
                  Rat.num_intCast, intRepr, pure, Except.pure, Bind.bind, Except.bind]
      · simp [hpt, pure, Except.pure]
    · simp [hn, pure, Except.pure]
  · simp [ht, pure, Except.pure]

theorem helper_process_inv {raw : JValue} {m : List (Int × String)} {pd : ProductData}
    (h : process_product_data raw m = some pd) :
    ∃ pid0 ttl, jGet raw "id" = .ok pid0 ∧ extract_product_name raw = .ok ttl ∧
      pd.id = pid0.getD .null ∧ pd.title = ttl ∧
      (jTruthy pd.id && jTruthy pd.title) = true := by
  unfold process_product_data at h
  split at h
  · exact Option.noConfusion h
  · rename_i pd0 heq
    split at h
    · rename_i hcond
      simp only [Option.some.injEq] at h
      subst h
      obtain ⟨pid0, hid, heq⟩ := except_bind_ok heq
      obtain ⟨gid0, hgid, heq⟩ := except_bind_ok heq
      obtain ⟨v0, hv, heq⟩ := except_bind_ok heq
      obtain ⟨ty0, hty, heq⟩ := except_bind_ok heq
      obtain ⟨ttl, httl, heq⟩ := except_bind_ok heq
      obtain ⟨vars0, hvars, heq⟩ := except_bind_ok heq
      obtain ⟨iu, hiu, heq⟩ := except_bind_ok heq
      simp only [pure, Except.pure, Except.ok.injEq] at heq
      subst heq
      exact ⟨pid0, ttl, hid, httl, rfl, rfl, hcond⟩
    · exact Option.noConfusion h

/-- C8: every record the extractor emits has a truthy (present, non-empty)
identifier and a non-empty resolved name: the emitted list passes the
process_product_data filter; and conversely a raw product whose id member
is absent, or whose name resolves to the empty string after the fallback
chain, can never pass the filter — it is dropped. -/
theorem c8_extract_nonempty {html : String} {ps : List ProductData}
    (h : extract_products_from_js html = .ok ps) :
    (∀ pd ∈ ps, jTruthy pd.id = true ∧ jTruthy pd.title = true) ∧
    (∀ (raw : JValue) (m : List (Int × String)) (pd : ProductData),
      process_product_data raw m = some pd →
      jGet raw "id" ≠ .ok none ∧ extract_product_name raw ≠ .ok (.str "")) := by
  constructor
  · unfold extract_products_from_js at h
    obtain ⟨mv, hmv, h⟩ := except_bind_ok h
    obtain ⟨im, him, h⟩ := except_bind_ok h
    obtain ⟨prods, hprods, h⟩ := except_bind_ok h
    simp only [pure, Except.pure, Except.ok.injEq] at h
    subst h
    intro pd hpd
    obtain ⟨p, hp, hpe⟩ := List.mem_filterMap.mp hpd
    obtain ⟨pid0, ttl, _, _, _, _, hcond⟩ := helper_process_inv hpe
    rw [Bool.and_eq_true] at hcond
    exact hcond
  · intro raw m pd hp
    obtain ⟨pid0, ttl, hid, httl, hpid, htitle, hcond⟩ := helper_process_inv hp
    rw [Bool.and_eq_true] at hcond
    constructor
    · intro hbad
      rw [hbad] at hid
      simp only [Except.ok.injEq] at hid
      have : pd.id = JValue.null := by
        rw [hpid, ← hid]
        rfl
      rw [this] at hcond
      exact Bool.noConfusion hcond.1
    · intro hbad
      rw [hbad] at httl
      simp only [Except.ok.injEq] at httl
      have : pd.title = JValue.str "" := by
        rw [htitle, ← httl]
      rw [this] at hcond
      exact Bool.noConfusion hcond.2

/-- C8 witness: on a page with a well-formed meta block the extractor
emits exactly the Tee record, whose id and title are truthy. -/
theorem c8_witness :
    extract_products_from_js htmlMetaOnly = .ok [pdSample] ∧
    jTruthy pdSample.id = true ∧ jTruthy pdSample.title = true := by
  have h : extract_products_from_js htmlMetaOnly = .ok [pdSample] := by rfl
  have hc := (c8_extract_nonempty h).1 pdSample (List.mem_singleton.mpr rfl)
  exact ⟨h, hc.1, hc.2⟩

theorem helper_imageLookupGet_nil {pid : JValue} {iu : String}
    (h : imageLookupGet [] pid = .ok iu) : iu = "" := by
  cases pid with
  | num q =>
      simp only [imageLookupGet, List.find?, Option.map, Option.getD, Except.ok.injEq] at h
      split at h <;> simp_all
  | bool b =>
      simp only [imageLookupGet, List.find?, Option.map, Option.getD, Except.ok.injEq] at h
      exact h.symm
  | null =>
      simp only [imageLookupGet, Except.ok.injEq] at h
      exact h.symm
  | str s =>
      simp only [imageLookupGet, Except.ok.injEq] at h
      exact h.symm
  | arr l => exact Except.noConfusion h
  | obj kvs => exact Except.noConfusion h

theorem helper_process_empty_mapping {raw : JValue} {pd : ProductData}
    (h : process_product_data raw [] = some pd) : pd.image_url = "" := by
  unfold process_product_data at h
  split at h
  · exact Option.noConfusion h
  · rename_i pd0 heq
    split at h
    · simp only [Option.some.injEq] at h
      subst h
      obtain ⟨pid0, hid, heq⟩ := except_bind_ok heq
      obtain ⟨gid0, hgid, heq⟩ := except_bind_ok heq
      obtain ⟨v0, hv, heq⟩ := except_bind_ok heq
      obtain ⟨ty0, hty, heq⟩ := except_bind_ok heq
      obtain ⟨ttl, httl, heq⟩ := except_bind_ok heq
      obtain ⟨vars0, hvars, heq⟩ := except_bind_ok heq
      obtain ⟨iu, hiu, heq⟩ := except_bind_ok heq
      simp only [pure, Except.pure, Except.ok.injEq] at heq
      subst heq
      exact helper_imageLookupGet_nil hiu
    · exact Option.noConfusion h

/-- C7 counterexample: the claim promises that extract raises no exception
whenever the metadata marker is absent.  On this page the marker is indeed
absent, but the web-pixels blob is valid JSON whose productVariants list
holds the bare number 5; iterating it calls .get on an int, the
AttributeError is outside the except json.JSONDecodeError clause, and
extract raises. -/
theorem c7_counterexample_image_raises :
    metaSearch htmlBadPixels = none ∧
    extract_products_from_js htmlBadPixels = .error () := by
  exact ⟨by rfl, by rfl⟩

/-- C7 (amended): when the metadata marker is absent or its matched
substring is not parseable JSON, the metadata stage contributes nothing and
extract returns the empty product sequence, provided the image stage itself
returns (which the original claim took for granted; a well-formed image
blob with non-dict variant entries makes extract raise instead, see the
counterexample).  Independently, a missing or unparseable image blob
yields an empty ImageLookup without raising and without aborting the
metadata stage, and the joined records then carry the empty-string
image_url. -/
theorem c7_parse_failure_isolation (html : String) :
    ((metaSearch html = none ∨ ∃ s, metaSearch html = some s ∧ jsonLoads s = none) →
      ∀ m, extract_images_from_web_pixels html = .ok m →
        extract_products_from_js html = .ok []) ∧
    ((wpSearch html = none ∨ ∃ s2, wpSearch html = some s2 ∧ jsonLoads s2 = none) →
      extract_images_from_web_pixels html = .ok [] ∧
      ∀ ps pd, extract_products_from_js html = .ok ps → pd ∈ ps → pd.image_url = "") := by
  constructor
  · intro hmeta m him
    have hm : extract_meta_products html = .ok (.arr []) := by
      unfold extract_meta_products
      rcases hmeta with h0 | ⟨s, h1, h2⟩
      · rw [h0]
      · rw [h1]
        dsimp only
        rw [h2]
    unfold extract_products_from_js
    rw [hm]
    simp only [Bind.bind, Except.bind]
    rw [him]
    simp [pyIter, pure, Except.pure]
  · intro hwp
    have him : extract_images_from_web_pixels html = .ok [] := by
      unfold extract_images_from_web_pixels
      rcases hwp with h0 | ⟨s2, h1, h2⟩
      · rw [h0]
      · rw [h1]
        dsimp only
        rw [h2]
    refine ⟨him, ?_⟩
    intro ps pd hex hmem
    unfold extract_products_from_js at hex
    obtain ⟨mv, hmv, hex⟩ := except_bind_ok hex
    obtain ⟨im, him2, hex⟩ := except_bind_ok hex
    obtain ⟨prods, hprods, hex⟩ := except_bind_ok hex
    simp only [pure, Except.pure, Except.ok.injEq] at hex
    subst hex
    rw [him] at him2
    simp only [Except.ok.injEq] at him2
    subst him2
    obtain ⟨p, hp, hpe⟩ := List.mem_filterMap.mp hmem
    exact helper_process_empty_mapping hpe

/-- C7 witness: a page with neither marker — the metadata stage and the
image stage each come back empty and extract returns the empty sequence. -/
theorem c7_witness :
    extract_products_from_js htmlPlain = .ok [] ∧
    extract_images_from_web_pixels htmlPlain = .ok [] := by
  have h1 : metaSearch htmlPlain = none := by rfl
  have h2 : wpSearch htmlPlain = none := by rfl
  have hi : extract_images_from_web_pixels htmlPlain = .ok [] :=
    ((c7_parse_failure_isolation htmlPlain).2 (Or.inl h2)).1
  exact ⟨(c7_parse_failure_isolation htmlPlain).1 (Or.inl h1) [] hi, hi⟩

theorem helper_collectPrices (pvs : List (Option Rat)) :
    collectPrices (pvs.map mkPriceVariant) =
      .ok (((pvs.filterMap id).filter (fun q => decide (q ≠ 0))).map JValue.num) := by
  induction pvs with
  | nil => rfl
  | cons a t ih =>
      cases a with
      | none =>
          simp only [List.map_cons, collectPrices, mkPriceVariant, jGet, jLookup,
            Bind.bind, Except.bind, ih]
          simp [pure, Except.pure]
      | some q =>
          by_cases hq : q = 0
          · simp only [List.map_cons, collectPrices, mkPriceVariant, jGet, jLookup,
              Bind.bind, Except.bind, ih, jTruthy]
            simp [hq, pure, Except.pure]
          · simp only [List.map_cons, collectPrices, mkPriceVariant, jGet, jLookup,
              Bind.bind, Except.bind, ih, jTruthy]
            simp [hq, pure, Except.pure]

theorem helper_numsOf (l : List Rat) : numsOf (l.map JValue.num) = some l := by
  induction l with
  | nil => rfl
  | cons a t ih => simp [numsOf, jNumVal, ih]

/-- C10 counterexample: a row with a zero-priced and a 200-priced variant.
The claim reads every variant carrying a price as priced, so it predicts
the range (0 / 100, 200 / 100) = (0, 2); the code filters prices by
truthiness, drops the zero, and returns (2, 2). -/
theorem c10_counterexample_zero_price :
    get_price_range cexPriceRow = .ok (some 2, some 2) ∧
    claimed_price_range cexPriceRow = (some 0, some 2) ∧
    ((some (2 : Rat), some (2 : Rat)) : Option Rat × Option Rat) ≠ (some 0, some 2) := by
  refine ⟨?_, ?_, by decide⟩
  · have h : get_price_range cexPriceRow =
        .ok (some ((200 : Rat) / 100), some ((200 : Rat) / 100)) := by rfl
    rw [h]
    norm_num
  · have h : claimed_price_range cexPriceRow =
        (some (listMin [0, 200] / 100), some (listMax [0, 200] / 100)) := by rfl
    rw [h]
    norm_num [listMin, listMax, List.foldl]

/-- C10 (amended): for a catalog row whose variants carry numeric prices or
none at all, get_price_range returns the base-price pair — without dividing
by 100 — whenever no variant has a truthy (present and non-zero) price,
zero-priced variants counting as unpriced; with at least one truthy price
it returns the minimum and maximum of the truthy prices each divided by
100.  In the no-truthy-price case the serialized price_range is the single
member price, itself null when the base price is null or zero. -/
theorem c10_price_range (bp : Option Rat) (pvs : List (Option Rat)) :
    get_price_range (mkPricedRow bp pvs) = .ok (
      if ((pvs.filterMap id).filter (fun q => decide (q ≠ 0))).isEmpty then (bp, bp)
      else (some (listMin ((pvs.filterMap id).filter (fun q => decide (q ≠ 0))) / 100),
            some (listMax ((pvs.filterMap id).filter (fun q => decide (q ≠ 0))) / 100))) ∧
    (((pvs.filterMap id).filter (fun q => decide (q ≠ 0))).isEmpty = true →
      serialize_price_range (mkPricedRow bp pvs) = .ok (.single (floatIfTruthy bp))) := by
  have hmain : get_price_range (mkPricedRow bp pvs) = .ok (
      if ((pvs.filterMap id).filter (fun q => decide (q ≠ 0))).isEmpty then (bp, bp)
      else (some (listMin ((pvs.filterMap id).filter (fun q => decide (q ≠ 0))) / 100),
            some (listMax ((pvs.filterMap id).filter (fun q => decide (q ≠ 0))) / 100))) := by
    unfold get_price_range
    cases pvs with
    | nil => rfl
    | cons a t =>
        have hne : ((mkPricedRow bp (a :: t)).variants.isEmpty) = false := by
          cases a <;> rfl
        rw [hne]
        simp only [Bool.false_eq_true, if_false, mkPricedRow]
        rw [helper_collectPrices (a :: t)]
        simp only [Bind.bind, Except.bind]
        cases hT : ((a :: t).filterMap id).filter (fun q => decide (q ≠ 0)) with
        | nil => simp [hT]
        | cons q qs =>
            simp only [hT, List.map_cons, List.isEmpty_cons, Bool.false_eq_true, if_false]
            rw [show (JValue.num q :: qs.map JValue.num) = (q :: qs).map JValue.num from rfl]
            rw [helper_numsOf (q :: qs)]
  refine ⟨hmain, ?_⟩
  intro hempty
  unfold serialize_price_range
  rw [hmain, hempty]
  simp only [Bind.bind, Except.bind, if_true, reduceIte]
  simp [pure, Except.pure]

/-- C10 witness: a row with base price 5 and a single unpriced variant —
the range is the base price on both ends, undivided, and it serializes as
the single price 5. -/
theorem c10_witness :
    get_price_range (mkPricedRow (some 5) [none]) = .ok (some 5, some 5) ∧
    serialize_price_range (mkPricedRow (some 5) [none]) = .ok (.single (some 5)) := by
  have h := c10_price_range (some 5) [none]
  constructor
  · have h1 := h.1
    simpa using h1
  · have h2 := h.2 (by rfl)
    simpa [floatIfTruthy] using h2
